import Mathlib

/-!
Shallow embedding of the `soroban-events-guide` contract (src/src/lib.rs).

The contract exposes a single entrypoint:

  fn init(e: Env, admin: Identifier) {
      let event = e.events();
      let t1 = (symbol!("init"),);
      let id_bytes = admin.serialize(&e);
      event.publish(t1, (id_bytes,));
  }

We embed the host environment as an explicit state value threaded through the
operations, events as (topic tuple, payload tuple) records appended to the
invocation's event log, and the identity codec as a pure function on the
`Identifier` variant set.
-/

/-- Byte sequences are modelled as lists of naturals (each intended `< 256`). -/
abbrev Bytes := List Nat

/-- Modelled from the spec: `Identity` is "a polymorphic value over a small
closed set of principal kinds (e.g., public-key-based, contract-based)",
represented "as a tagged variant (sum type) with one case per principal kind,
each carrying its own key-material payload".  This mirrors
`soroban_auth::Identifier`, whose type is external SDK code not present under
`src/`. -/
inductive Identifier where
  | Contract (key : Bytes)
  | Ed25519 (key : Bytes)
  | Account (key : Bytes)
deriving DecidableEq, Repr

/-- Discriminant tag of an `Identifier` variant. -/
def Identifier.discriminant : Identifier → Nat
  | .Contract _ => 0
  | .Ed25519 _ => 1
  | .Account _ => 2

/-- Key material carried by an `Identifier` variant. -/
def Identifier.keyMaterial : Identifier → Bytes
  | .Contract k => k
  | .Ed25519 k => k
  | .Account k => k

/-- Well-formed identities carry 32 bytes of key material, every byte below
256 (the `BytesN<32>` key material of the SDK type). -/
def Identifier.wellFormed (i : Identifier) : Prop :=
  i.keyMaterial.length = 32 ∧ ∀ b ∈ i.keyMaterial, b < 256

instance (i : Identifier) : Decidable i.wellFormed := by
  unfold Identifier.wellFormed; infer_instance

/-- Events are ordered pairs of a topic tuple (symbols, modelled as strings)
and a payload tuple of byte sequences, as recorded by the host event log. -/
structure Event where
  topics : List String
  data : List Bytes
deriving DecidableEq, Repr

/-- Host errors that can surface from the event-publishing primitive
(modelled from the spec: "host-enforced resource limits"). -/
inductive HostError where
  | eventLimitExceeded
deriving DecidableEq, Repr

/-- Host environment state visible to the contract: the append-only event log
of the current invocation, the contract-owned persistent storage (a key-value
map; this contract never touches it), a count of cross-contract calls made,
and the host-enforced limit on recordable events. -/
structure Env where
  events : List Event
  storage : List (Bytes × Bytes)
  crossCalls : Nat
  eventLimit : Nat
deriving DecidableEq, Repr

namespace Serialize

/-- Modelled from the spec: the Identity Codec, `encode(identity) -> bytes`,
a "deterministic, versioned serialization" of the tagged variant —
discriminant tag followed by the key-material payload.  The codec itself
(`soroban_sdk::serde::Serialize`) is external SDK code not present under
`src/`. -/
def encode (i : Identifier) : Bytes :=
  i.discriminant :: i.keyMaterial

/-- Mirror of the call `admin.serialize(&e)` in `init`: the Rust method takes
the environment by shared reference, so the embedding passes the environment
in and returns it alongside the produced bytes, making absence of side
effects provable. -/
def serialize (admin : Identifier) (e : Env) : Bytes × Env :=
  (encode admin, e)

/-- Codec error type for the checked variant of the encoder. -/
inductive CodecError where
  | unrecognizedDiscriminant
deriving DecidableEq, Repr

/-- Checked encoder surfacing the (unreachable) error branch of
serialization: every constructor of `Identifier` is a recognized principal
kind, so every case yields `Except.ok`. -/
def encodeChecked (i : Identifier) : Except CodecError Bytes :=
  match i with
  | .Contract k => .ok (0 :: k)
  | .Ed25519 k => .ok (1 :: k)
  | .Account k => .ok (2 :: k)

end Serialize

namespace Events

/-- Host event-publishing facility: appends one event to the current
invocation's log, failing only when the host-enforced event limit would be
exceeded (the host-side failure mode the spec allows for). -/
def publish (e : Env) (topics : List String) (data : List Bytes) :
    Except HostError Env :=
  if e.events.length < e.eventLimit then
    .ok { e with events := e.events ++ [⟨topics, data⟩] }
  else
    .error .eventLimitExceeded

end Events

namespace EventsContract

/-- The event `init` hands to the host for a given admin identity. -/
def initEvent (admin : Identifier) : Event :=
  ⟨["init"], [Serialize.encode admin]⟩

/-- Embedding of `EventsContract::init` from src/src/lib.rs: build the topic
tuple `(symbol!("init"),)`, serialize `admin`, and publish the event through
the host facility. -/
def init (e : Env) (admin : Identifier) : Except HostError Env :=
  let t1 := ["init"]
  let p := Serialize.serialize admin e
  Events.publish p.2 t1 [p.1]

end EventsContract

/-! ## Helper lemmas shared across the development -/

/-- Characterization of a successful `publish`: the event limit is respected
and the result is the input environment with the event appended. -/
theorem publish_ok_iff (e : Env) (ts : List String) (ds : List Bytes) (e' : Env) :
    Events.publish e ts ds = .ok e' ↔
      e.events.length < e.eventLimit ∧
        e' = { e with events := e.events ++ [⟨ts, ds⟩] } := by
  unfold Events.publish
  split
  · constructor
    · intro h
      cases h
      exact ⟨by assumption, rfl⟩
    · rintro ⟨-, rfl⟩
      rfl
  · constructor
    · intro h
      cases h
    · rintro ⟨hlt, -⟩
      exact absurd hlt (by assumption)

/-- Characterization of a successful `init` call. -/
theorem init_ok_iff (e : Env) (admin : Identifier) (e' : Env) :
    EventsContract.init e admin = .ok e' ↔
      e.events.length < e.eventLimit ∧
        e' = { e with events := e.events ++ [EventsContract.initEvent admin] } :=
  publish_ok_iff e ["init"] [Serialize.encode admin] e'

/-! ## Claim theorems -/

/-- C1: a successful `init(I)` call appends exactly one new event to the
invocation's event log, with topic the single-element tuple `("init",)` and
payload the single-element tuple containing the serialization of `I`. -/
theorem init_appends_single_init_event (e : Env) (admin : Identifier) (e' : Env)
    (h : EventsContract.init e admin = .ok e') :
    e'.events = e.events ++ [⟨["init"], [Serialize.encode admin]⟩] := by
  obtain ⟨-, rfl⟩ := (init_ok_iff e admin e').1 h
  rfl

/-- Witness for C1 at a concrete environment and identity. -/
theorem init_appends_single_init_event_witness :
    (Env.mk [Event.mk ["init"] [[1, 7]]] [] 0 1).events
      = (Env.mk [] [] 0 1).events
          ++ [⟨["init"], [Serialize.encode (Identifier.Ed25519 [7])]⟩] :=
  init_appends_single_init_event (Env.mk [] [] 0 1) (Identifier.Ed25519 [7])
    (Env.mk [Event.mk ["init"] [[1, 7]]] [] 0 1) (by rfl)

/-- C2: every event emitted by an `init` invocation carries exactly the
literal `"init"` topic and a payload that is the encoding of the `admin`
argument of that invocation; no event of any other shape is produced. -/
theorem init_emits_only_init_tagged_events (e : Env) (admin : Identifier)
    (e' : Env) (h : EventsContract.init e admin = .ok e') :
    ∃ emitted, e'.events = e.events ++ emitted ∧
      ∀ ev ∈ emitted, ev.topics = ["init"] ∧ ev.data = [Serialize.encode admin] := by
  obtain ⟨-, rfl⟩ := (init_ok_iff e admin e').1 h
  refine ⟨[EventsContract.initEvent admin], rfl, ?_⟩
  intro ev hev
  rw [List.mem_singleton] at hev
  subst hev
  exact ⟨rfl, rfl⟩

/-- Witness for C2 at a concrete environment and identity. -/
theorem init_emits_only_init_tagged_events_witness :
    ∃ emitted, (Env.mk [Event.mk ["init"] [[0, 3]]] [] 0 1).events
        = (Env.mk [] [] 0 1).events ++ emitted ∧
      ∀ ev ∈ emitted, ev.topics = ["init"]
        ∧ ev.data = [Serialize.encode (Identifier.Contract [3])] :=
  init_emits_only_init_tagged_events (Env.mk [] [] 0 1) (Identifier.Contract [3])
    (Env.mk [Event.mk ["init"] [[0, 3]]] [] 0 1) (by rfl)

/-- C3: the identity codec is deterministic and side-effect free: the bytes
produced by `serialize` do not depend on the environment (so repeated calls
on the same identity agree), and the environment is returned unchanged. -/
theorem serialize_deterministic_and_pure (admin : Identifier) (e e' : Env) :
    (Serialize.serialize admin e).1 = (Serialize.serialize admin e').1
      ∧ (Serialize.serialize admin e).2 = e :=
  ⟨rfl, rfl⟩

/-- C4: the identity serialization is injective on well-formed identities:
distinct identities have distinct encodings. -/
theorem encode_injective_on_wellFormed (i1 i2 : Identifier)
    (h1 : i1.wellFormed) (h2 : i2.wellFormed) (hne : i1 ≠ i2) :
    Serialize.encode i1 ≠ Serialize.encode i2 := by
  intro h
  apply hne
  cases i1 <;> cases i2 <;>
    simp [Serialize.encode, Identifier.discriminant, Identifier.keyMaterial] at h <;>
    simp [h]

/-- Witness for C4 at two concrete well-formed identities. -/
theorem encode_injective_on_wellFormed_witness :
    (Identifier.Contract (List.replicate 32 0)).wellFormed
      ∧ (Identifier.Ed25519 (List.replicate 32 0)).wellFormed
      ∧ Serialize.encode (Identifier.Contract (List.replicate 32 0))
          ≠ Serialize.encode (Identifier.Ed25519 (List.replicate 32 0)) :=
  ⟨by decide, by decide,
    encode_injective_on_wellFormed (Identifier.Contract (List.replicate 32 0))
      (Identifier.Ed25519 (List.replicate 32 0)) (by decide) (by decide) (by decide)⟩

/-- C5: encoding a well-formed identity never fails: the checked encoder
returns `ok` on every recognized variant, agreeing with the total encoder,
so the error branch of serialization is unreachable. -/
theorem encodeChecked_never_fails (i : Identifier) (h : i.wellFormed) :
    ∃ bs, Serialize.encodeChecked i = .ok bs ∧ bs = Serialize.encode i := by
  cases i <;> exact ⟨_, rfl, rfl⟩

/-- Witness for C5 at a concrete well-formed identity. -/
theorem encodeChecked_never_fails_witness :
    (Identifier.Account (List.replicate 32 5)).wellFormed
      ∧ ∃ bs, Serialize.encodeChecked (Identifier.Account (List.replicate 32 5)) = .ok bs
          ∧ bs = Serialize.encode (Identifier.Account (List.replicate 32 5)) :=
  ⟨by decide, encodeChecked_never_fails (Identifier.Account (List.replicate 32 5)) (by decide)⟩

/-- C6: frame condition for `init`: a successful call leaves the persistent
storage, cross-contract-call count and host event limit untouched, and its
only effect is the single `"init"`-tagged event appended to the log. -/
theorem init_frame_only_event_append (e : Env) (admin : Identifier) (e' : Env)
    (h : EventsContract.init e admin = .ok e') :
    e'.storage = e.storage ∧ e'.crossCalls = e.crossCalls
      ∧ e'.eventLimit = e.eventLimit
      ∧ e'.events = e.events ++ [EventsContract.initEvent admin] := by
  obtain ⟨-, rfl⟩ := (init_ok_iff e admin e').1 h
  exact ⟨rfl, rfl, rfl, rfl⟩

/-- Witness for C6 at a concrete environment with nonempty storage. -/
theorem init_frame_only_event_append_witness :
    (Env.mk [EventsContract.initEvent (Identifier.Ed25519 [9])] [([1], [2])] 4 3).storage
        = (Env.mk [] [([1], [2])] 4 3).storage
      ∧ (Env.mk [EventsContract.initEvent (Identifier.Ed25519 [9])] [([1], [2])] 4 3).crossCalls
        = (Env.mk [] [([1], [2])] 4 3).crossCalls
      ∧ (Env.mk [EventsContract.initEvent (Identifier.Ed25519 [9])] [([1], [2])] 4 3).eventLimit
        = (Env.mk [] [([1], [2])] 4 3).eventLimit
      ∧ (Env.mk [EventsContract.initEvent (Identifier.Ed25519 [9])] [([1], [2])] 4 3).events
        = (Env.mk [] [([1], [2])] 4 3).events
            ++ [EventsContract.initEvent (Identifier.Ed25519 [9])] :=
  init_frame_only_event_append (Env.mk [] [([1], [2])] 4 3) (Identifier.Ed25519 [9])
    (Env.mk [EventsContract.initEvent (Identifier.Ed25519 [9])] [([1], [2])] 4 3) (by rfl)

/-- C7: `init` fails with a given host error exactly when the underlying
host event-publishing call on its event fails with that error: host failures
propagate unchanged, and (the `Except` result carrying no environment on
error) a failed call leaves no partial effects and is never reported ok. -/
theorem init_fails_iff_publish_fails (e : Env) (admin : Identifier) (err : HostError) :
    EventsContract.init e admin = .error err
      ↔ Events.publish e ["init"] [Serialize.encode admin] = .error err :=
  Iff.rfl

/-- C8: `init` checks no precondition and keeps no memory of prior calls:
whenever the host event limit leaves room, two consecutive calls with admins
`A` then `B` both succeed — the second without error — and record exactly the
two independent events, each matching its own call. -/
theorem init_twice_records_two_events (e : Env) (A B : Identifier)
    (h : e.events.length + 2 ≤ e.eventLimit) :
    ∃ e1 e2, EventsContract.init e A = .ok e1
      ∧ EventsContract.init e1 B = .ok e2
      ∧ e2.events = e.events ++ [EventsContract.initEvent A, EventsContract.initEvent B] := by
  refine ⟨_, _, (init_ok_iff e A _).2 ⟨by omega, rfl⟩, (init_ok_iff _ B _).2 ⟨?_, rfl⟩, ?_⟩
  · simp only [List.length_append, List.length_singleton]
    omega
  · simp [List.append_assoc]

/-- Witness for C8 at a concrete environment with room for two events. -/
theorem init_twice_records_two_events_witness :
    (Env.mk [] [] 0 2).events.length + 2 ≤ (Env.mk [] [] 0 2).eventLimit
      ∧ ∃ e1 e2, EventsContract.init (Env.mk [] [] 0 2) (Identifier.Ed25519 [1]) = .ok e1
        ∧ EventsContract.init e1 (Identifier.Ed25519 [2]) = .ok e2
        ∧ e2.events = (Env.mk [] [] 0 2).events
            ++ [EventsContract.initEvent (Identifier.Ed25519 [1]),
                EventsContract.initEvent (Identifier.Ed25519 [2])] :=
  ⟨by decide,
    init_twice_records_two_events (Env.mk [] [] 0 2)
      (Identifier.Ed25519 [1]) (Identifier.Ed25519 [2]) (by decide)⟩

/-- C9: two-run noninterference: the event emitted by `init` depends only on
the admin argument — in any two successful runs with the same admin, however
the prior event logs and other host state differ, the newly emitted suffix of
the log is the same single event. -/
theorem init_event_depends_only_on_admin (e f : Env) (admin : Identifier)
    (e' f' : Env) (he : EventsContract.init e admin = .ok e')
    (hf : EventsContract.init f admin = .ok f') :
    e'.events.drop e.events.length = f'.events.drop f.events.length
      ∧ e'.events.drop e.events.length = [EventsContract.initEvent admin] := by
  obtain ⟨-, rfl⟩ := (init_ok_iff e admin e').1 he
  obtain ⟨-, rfl⟩ := (init_ok_iff f admin f').1 hf
  simp

/-- Witness for C9 at two concrete runs from different prior states. -/
theorem init_event_depends_only_on_admin_witness :
    (Env.mk [EventsContract.initEvent (Identifier.Contract [8]),
        EventsContract.initEvent (Identifier.Ed25519 [4])] [([0], [0])] 2 9).events.drop
        (Env.mk [EventsContract.initEvent (Identifier.Contract [8])] [([0], [0])] 2 9).events.length
      = (Env.mk [EventsContract.initEvent (Identifier.Ed25519 [4])] [] 0 1).events.drop
          (Env.mk [] [] 0 1).events.length
      ∧ (Env.mk [EventsContract.initEvent (Identifier.Contract [8]),
          EventsContract.initEvent (Identifier.Ed25519 [4])] [([0], [0])] 2 9).events.drop
          (Env.mk [EventsContract.initEvent (Identifier.Contract [8])] [([0], [0])] 2 9).events.length
        = [EventsContract.initEvent (Identifier.Ed25519 [4])] :=
  init_event_depends_only_on_admin
    (Env.mk [EventsContract.initEvent (Identifier.Contract [8])] [([0], [0])] 2 9)
    (Env.mk [] [] 0 1) (Identifier.Ed25519 [4])
    (Env.mk [EventsContract.initEvent (Identifier.Contract [8]),
      EventsContract.initEvent (Identifier.Ed25519 [4])] [([0], [0])] 2 9)
    (Env.mk [EventsContract.initEvent (Identifier.Ed25519 [4])] [] 0 1)
    (by rfl) (by rfl)

/-- C10: the contract's own logic in `init` is total for every identifier
variant: it performs no indexing, arithmetic, assertion or branching on the
admin value, and the whole call reduces to the single host `publish`
primitive on the encoded admin — the only possible failure point. -/
theorem init_reduces_to_publish (e : Env) (admin : Identifier) :
    EventsContract.init e admin
      = Events.publish e ["init"] [Serialize.encode admin] :=
  rfl
